import Mathlib

/-!
Shallow embedding of `agent.py` (Cisco Secure Endpoint MCP server).

The remote API is modelled as a pure function from HTTP requests to
responses.  Every operation returns, next to its result, the list of HTTP
requests it issued, in the order they were issued, so that statements such
as "no network call is performed" or "exactly N pages are fetched" can be
made about the trace.  The bounded pagination loop
(`while url and pages < max_pages`) is embedded as structural recursion on
the remaining page budget `max_pages - pages`.
-/

namespace AgentPy

/-- HTTP method of a request issued by the agent
(`requests.get` / `requests.post` / `requests.delete`). -/
inductive Method where
  | get
  | post
  | delete
deriving DecidableEq, Repr

/-- A single HTTP request issued by the agent: method and URL.
Every request additionally carries `auth=(CLIENT_ID, API_KEY)` and the
constant `Accept: application/json` header; neither influences the model. -/
structure Request where
  method : Method
  url : String
deriving DecidableEq, Repr

/-- The parsed JSON body of a server response, restricted to the two
projections the agent reads: `data` models `body.get("data", [])` and
`next` models `body.get("metadata", {}).get("links", {}).get("next")`
(`none` when any of the keys is absent). -/
structure JsonBody (α : Type) where
  data : List α
  next : Option String
deriving DecidableEq, Repr

/-- A server HTTP response: status code and parsed JSON body. -/
structure Response (α : Type) where
  status : Nat
  body : JsonBody α
deriving DecidableEq, Repr

/-- The remote API: a pure map from each request to the response the
server gives it. -/
def Server (α : Type) : Type := Request → Response α

/-- Models `response.raise_for_status()`: `requests` raises `HTTPError`
exactly when `400 ≤ status_code < 600`. -/
def raisesForStatus (status : Nat) : Bool :=
  400 ≤ status && status < 600

/-- The `requests.HTTPError` raised by `raise_for_status`: it retains the
response, hence the response status and response body. -/
structure HttpError (α : Type) where
  status : Nat
  body : JsonBody α
deriving DecidableEq, Repr

/-- Python truthiness of an optional string: `None` and `""` are falsy.
Used for `while url and ...` and `if not CLIENT_ID or not API_KEY`. -/
def pyTruthy : Option String → Bool
  | none => false
  | some s => !(s == "")

/-- The constant `BASE_URL = "https://api.amp.cisco.com/v1"`. -/
def BASE_URL : String := "https://api.amp.cisco.com/v1"

/-- The pagination loop shared verbatim by `_list_computers` and
`_list_events`:

    while url and pages < max_pages:
        response = requests.get(url, ...)
        response.raise_for_status()
        data = response.json()
        results.extend(data.get("data", []))
        url = data.get("metadata", {}).get("links", {}).get("next")
        pages += 1

The first argument after the server is the remaining page budget
`max_pages - pages`; the returned number is the count of loop iterations
performed, i.e. the final value of `pages`.  An `HTTPError` aborts the
whole loop (the exception propagates), discarding accumulated items; the
trace still records the failing request, which was issued. -/
def fetchLoop (server : Server α) :
    Nat → Option String → Except (HttpError α) (List α × Nat) × List Request
  | 0, _ => (.ok ([], 0), [])
  | _ + 1, none => (.ok ([], 0), [])
  | fuel + 1, some u =>
    if u == "" then (.ok ([], 0), [])
    else
      let resp := server ⟨.get, u⟩
      if raisesForStatus resp.status then
        (.error ⟨resp.status, resp.body⟩, [⟨.get, u⟩])
      else
        match fetchLoop server fuel resp.body.next with
        | (.ok (items, pages), reqs) =>
          (.ok (resp.body.data ++ items, pages + 1), ⟨.get, u⟩ :: reqs)
        | (.error e, reqs) => (.error e, ⟨.get, u⟩ :: reqs)

/-- Result dictionary of `_list_computers`. -/
structure ComputersResult (α : Type) where
  total_devices : Nat
  pages_retrieved : Nat
  computers : List α
deriving DecidableEq, Repr

/-- Result dictionary of `_list_events`. -/
structure EventsResult (α : Type) where
  total_events : Nat
  pages_retrieved : Nat
  events : List α
deriving DecidableEq, Repr

/-- The starting URL `f"{BASE_URL}/computers?limit={limit_per_page}"`. -/
def computersUrl (limitPerPage : Int) : String :=
  BASE_URL ++ "/computers?limit=" ++ toString limitPerPage

/-- The starting URL `f"{BASE_URL}/events?limit={limit_per_page}"`. -/
def eventsUrl (limitPerPage : Int) : String :=
  BASE_URL ++ "/events?limit=" ++ toString limitPerPage

/-- Models `_list_computers(max_pages, limit_per_page)`.  `max_pages` is a Python
`int`, hence `Int` here; the loop runs `max(max_pages, 0) = max_pages.toNat`
times at most. -/
def listComputers (server : Server α) (maxPages limitPerPage : Int) :
    Except (HttpError α) (ComputersResult α) × List Request :=
  match fetchLoop server maxPages.toNat (some (computersUrl limitPerPage)) with
  | (.ok (items, pages), reqs) => (.ok ⟨items.length, pages, items⟩, reqs)
  | (.error e, reqs) => (.error e, reqs)

/-- Models `_list_events(max_pages, limit_per_page)`. -/
def listEvents (server : Server α) (maxPages limitPerPage : Int) :
    Except (HttpError α) (EventsResult α) × List Request :=
  match fetchLoop server maxPages.toNat (some (eventsUrl limitPerPage)) with
  | (.ok (items, pages), reqs) => (.ok ⟨items.length, pages, items⟩, reqs)
  | (.error e, reqs) => (.error e, reqs)

/-- The per-device isolation resource URL
`f"{BASE_URL}/computers/{computer_guid}/isolation"`. -/
def isolationUrl (guid : String) : String :=
  BASE_URL ++ "/computers/" ++ guid ++ "/isolation"

/-- Result dictionary of `_isolate_device` and `_unisolate_device`. -/
structure ActionResult where
  status : String
  message : String
  computer_guid : String
deriving DecidableEq, Repr

/-- Models `_isolate_device(computer_guid)`: one POST, `raise_for_status`, fixed
success dictionary. -/
def isolateDevice (server : Server α) (guid : String) :
    Except (HttpError α) ActionResult × List Request :=
  let resp := server ⟨.post, isolationUrl guid⟩
  if raisesForStatus resp.status then
    (.error ⟨resp.status, resp.body⟩, [⟨.post, isolationUrl guid⟩])
  else
    (.ok ⟨"success", "Device " ++ guid ++ " isolated successfully", guid⟩,
     [⟨.post, isolationUrl guid⟩])

/-- Models `_unisolate_device(computer_guid)`: one DELETE, `raise_for_status`,
fixed success dictionary. -/
def unisolateDevice (server : Server α) (guid : String) :
    Except (HttpError α) ActionResult × List Request :=
  let resp := server ⟨.delete, isolationUrl guid⟩
  if raisesForStatus resp.status then
    (.error ⟨resp.status, resp.body⟩, [⟨.delete, isolationUrl guid⟩])
  else
    (.ok ⟨"success", "Device " ++ guid ++ " unisolated successfully", guid⟩,
     [⟨.delete, isolationUrl guid⟩])

/-- Result dictionary of `_get_isolation_status`: the GUID plus the
response body verbatim. -/
structure StatusResult (α : Type) where
  computer_guid : String
  isolation_status : JsonBody α
deriving DecidableEq, Repr

/-- Models `_get_isolation_status(computer_guid)`: one GET, `raise_for_status`,
body passed through. -/
def getIsolationStatus (server : Server α) (guid : String) :
    Except (HttpError α) (StatusResult α) × List Request :=
  let resp := server ⟨.get, isolationUrl guid⟩
  if raisesForStatus resp.status then
    (.error ⟨resp.status, resp.body⟩, [⟨.get, isolationUrl guid⟩])
  else
    (.ok ⟨guid, resp.body⟩, [⟨.get, isolationUrl guid⟩])

/-- The argument mapping of a tool call, restricted to the three keys the
dispatcher ever reads (`max_pages`, `limit_per_page`, `computer_guid`);
a field is `none` when the key is absent from the dictionary. -/
structure Arguments where
  max_pages : Option Int
  limit_per_page : Option Int
  computer_guid : Option String
deriving DecidableEq, Repr

/-- Models `arguments.get("max_pages", 3) if arguments else 3`. -/
def argMaxPages : Option Arguments → Int
  | some a => a.max_pages.getD 3
  | none => 3

/-- Models `arguments.get("limit_per_page", 50) if arguments else 50`. -/
def argLimitPerPage : Option Arguments → Int
  | some a => a.limit_per_page.getD 50
  | none => 50

/-- The guard `if not arguments or "computer_guid" not in arguments`
succeeds (raising `ValueError`) exactly when this is `none`; note that for
`arguments = None` and for an `arguments` dictionary without the key the
guard behaves identically. -/
def argGuid : Option Arguments → Option String
  | some a => a.computer_guid
  | none => none

/-- The `result` value built by the `try` block of `handle_call_tool`:
one of the five handler result dictionaries. -/
inductive ToolResult (α : Type) where
  | computers (r : ComputersResult α)
  | events (r : EventsResult α)
  | isolated (r : ActionResult)
  | unisolated (r : ActionResult)
  | isolation (r : StatusResult α)
deriving DecidableEq, Repr

/-- An exception escaping the `try` block of `handle_call_tool`: a
`ValueError` raised by the dispatcher itself (missing required argument,
unknown tool) or a `requests.HTTPError` from `raise_for_status`. -/
inductive DispatchError (α : Type) where
  | valueError (msg : String)
  | httpError (e : HttpError α)
deriving DecidableEq, Repr

/-- A `TextContent` payload returned to the MCP host.  `json r` stands for
the text `json.dumps(result, indent=2, ensure_ascii=False)`; `errorText t e`
stands for the text `f"Error executing {t}: {str(e)}"` produced by the
`except` clause.  Both renderings are injective in their arguments, so the
structured form is kept instead of a string. -/
inductive TextContent (α : Type) where
  | text (s : String)
  | json (r : ToolResult α)
  | errorText (tool : String) (e : DispatchError α)
deriving DecidableEq, Repr

/-- Message of the `ValueError` raised when `computer_guid` is missing. -/
def guidRequired : String := "computer_guid parameter is required"

/-- The `try` block of `handle_call_tool`: dispatch on the tool name,
returning either the handler result or the exception it raised, together
with the trace of HTTP requests issued. -/
def dispatchTool (server : Server α) (tool : String) (args : Option Arguments) :
    Except (DispatchError α) (ToolResult α) × List Request :=
  if tool == "list_computers" then
    match listComputers server (argMaxPages args) (argLimitPerPage args) with
    | (.ok r, reqs) => (.ok (.computers r), reqs)
    | (.error e, reqs) => (.error (.httpError e), reqs)
  else if tool == "list_events" then
    match listEvents server (argMaxPages args) (argLimitPerPage args) with
    | (.ok r, reqs) => (.ok (.events r), reqs)
    | (.error e, reqs) => (.error (.httpError e), reqs)
  else if tool == "isolate_device" then
    match argGuid args with
    | none => (.error (.valueError guidRequired), [])
    | some guid =>
      match isolateDevice server guid with
      | (.ok r, reqs) => (.ok (.isolated r), reqs)
      | (.error e, reqs) => (.error (.httpError e), reqs)
  else if tool == "unisolate_device" then
    match argGuid args with
    | none => (.error (.valueError guidRequired), [])
    | some guid =>
      match unisolateDevice server guid with
      | (.ok r, reqs) => (.ok (.unisolated r), reqs)
      | (.error e, reqs) => (.error (.httpError e), reqs)
  else if tool == "get_isolation_status" then
    match argGuid args with
    | none => (.error (.valueError guidRequired), [])
    | some guid =>
      match getIsolationStatus server guid with
      | (.ok r, reqs) => (.ok (.isolation r), reqs)
      | (.error e, reqs) => (.error (.httpError e), reqs)
  else (.error (.valueError ("Unknown tool: " ++ tool)), [])

/-- Process state relevant to `handle_call_tool`: the two credential
environment variables (`none` when unset) and the remote API. -/
structure Env (α : Type) where
  CLIENT_ID : Option String
  API_KEY : Option String
  server : Server α

/-- The fixed missing-credentials error text. -/
def missingCredsText : String :=
  "Error: Missing environment variables. Please set SECURE_ENDPOINT_CLIENT_ID and SECURE_ENDPOINT_API_KEY"

/-- Models `handle_call_tool(name, arguments)`: the credentials guard, then the
`try` block with the `except` clause converting any exception into a
single `errorText` payload.  Returns the payload list together with the
trace of HTTP requests issued during the call. -/
def handleCallTool (env : Env α) (tool : String) (args : Option Arguments) :
    List (TextContent α) × List Request :=
  if !pyTruthy env.CLIENT_ID || !pyTruthy env.API_KEY then
    ([.text missingCredsText], [])
  else
    match dispatchTool env.server tool args with
    | (.ok r, reqs) => ([.json r], reqs)
    | (.error e, reqs) => ([.errorText tool e], reqs)

/-- The item lists of the pages obtained by replaying a request trace
against the server, concatenated in arrival order. -/
def traceItems (server : Server α) (reqs : List Request) : List α :=
  (reqs.map fun r => (server r).body.data).flatten

/-- The cursor update performed by one loop iteration: a falsy URL stays
exhausted, a truthy one is fetched and replaced by the response's
next-link. -/
def stepUrl (server : Server α) : Option String → Option String
  | none => none
  | some u => if u == "" then none else (server ⟨.get, u⟩).body.next

/-- The URL the loop holds before iteration `k` (0-based), starting
from `u`. -/
def urlAt (server : Server α) (u : Option String) : Nat → Option String
  | 0 => u
  | k + 1 => stepUrl server (urlAt server u k)

/-- The response the server gives to page `k` (0-based), when the cursor
before iteration `k` is truthy. -/
def respAt (server : Server α) (u : Option String) (k : Nat) :
    Option (Response α) :=
  match urlAt server u k with
  | none => none
  | some s => if s == "" then none else some (server ⟨.get, s⟩)

/-- Concatenation of the item sequences of pages `0, …, k-1`. -/
def itemsUpTo (server : Server α) (u : Option String) : Nat → List α
  | 0 => []
  | k + 1 =>
    itemsUpTo server u k ++ (respAt server u k).elim [] fun r => r.body.data

/-- The server answers every request with a success status
(`raise_for_status` does not raise). -/
def neverRaises (server : Server α) : Prop :=
  ∀ r : Request, raisesForStatus (server r).status = false

/-- The server offers a truthy continuation link on every response. -/
def alwaysNext (server : Server α) : Prop :=
  ∀ r : Request, pyTruthy (server r).body.next = true

theorem traceItems_nil (server : Server α) : traceItems server [] = [] := by
  simp [traceItems]

theorem traceItems_cons (server : Server α) (r : Request) (reqs : List Request) :
    traceItems server (r :: reqs) =
      (server r).body.data ++ traceItems server reqs := by
  simp [traceItems]

/-- The starting URL of `_list_computers` is a nonempty string. -/
theorem computersUrl_ne_empty (lp : Int) : (computersUrl lp == "") = false := by
  rw [beq_eq_false_iff_ne]
  intro h
  have h2 := congrArg String.length h
  rw [computersUrl, String.length_append, String.length_append] at h2
  simp at h2
  exact absurd h2.1.1 (by decide)

/-- The starting URL of `_list_events` is a nonempty string. -/
theorem eventsUrl_ne_empty (lp : Int) : (eventsUrl lp == "") = false := by
  rw [beq_eq_false_iff_ne]
  intro h
  have h2 := congrArg String.length h
  rw [eventsUrl, String.length_append, String.length_append] at h2
  simp at h2
  exact absurd h2.1.1 (by decide)

/-- On a successful run, the trace has exactly one request per retrieved
page, the page count never exceeds the budget, and the items are the
concatenation of the fetched pages' item sequences in arrival order. -/
theorem fetchLoop_ok (server : Server α) :
    ∀ (fuel : Nat) (u : Option String) (items : List α) (pages : Nat)
      (reqs : List Request),
      fetchLoop server fuel u = (.ok (items, pages), reqs) →
      reqs.length = pages ∧ pages ≤ fuel ∧ items = traceItems server reqs := by
  intro fuel
  induction fuel with
  | zero =>
    intro u items pages reqs h
    simp only [fetchLoop, Prod.mk.injEq, Except.ok.injEq] at h
    obtain ⟨⟨hi, hp⟩, hr⟩ := h
    subst hi; subst hp; subst hr
    simp [traceItems]
  | succ fuel ih =>
    intro u items pages reqs h
    match u with
    | none =>
      simp only [fetchLoop, Prod.mk.injEq, Except.ok.injEq] at h
      obtain ⟨⟨hi, hp⟩, hr⟩ := h
      subst hi; subst hp; subst hr
      simp [traceItems]
    | some s =>
      simp only [fetchLoop] at h
      split at h
      · simp only [Prod.mk.injEq, Except.ok.injEq] at h
        obtain ⟨⟨hi, hp⟩, hr⟩ := h
        subst hi; subst hp; subst hr
        simp [traceItems]
      · split at h
        · simp at h
        · split at h
          · rename_i items' pages' reqs' heq
            simp only [Prod.mk.injEq, Except.ok.injEq] at h
            obtain ⟨⟨hi, hp⟩, hr⟩ := h
            subst hi; subst hp; subst hr
            obtain ⟨l1, l2, l3⟩ := ih _ _ _ _ heq
            refine ⟨by simp [l1], by omega, ?_⟩
            rw [traceItems_cons, l3]
          · simp at h

/-- On a failing run, the trace is a sequence of successfully answered
requests followed by exactly one failing request; the error carries that
response's status and body, and the trace stays within the page budget. -/
theorem fetchLoop_err (server : Server α) :
    ∀ (fuel : Nat) (u : Option String) (e : HttpError α) (reqs : List Request),
      fetchLoop server fuel u = (.error e, reqs) →
      ∃ pre fail, reqs = pre ++ [fail] ∧
        (∀ r ∈ pre, raisesForStatus (server r).status = false) ∧
        raisesForStatus (server fail).status = true ∧
        e = ⟨(server fail).status, (server fail).body⟩ ∧
        reqs.length ≤ fuel := by
  intro fuel
  induction fuel with
  | zero =>
    intro u e reqs h
    simp [fetchLoop] at h
  | succ fuel ih =>
    intro u e reqs h
    match u with
    | none => simp [fetchLoop] at h
    | some s =>
      simp only [fetchLoop] at h
      split at h
      · simp at h
      · split at h
        · rename_i hraise
          simp only [Prod.mk.injEq, Except.error.injEq] at h
          obtain ⟨he, hr⟩ := h
          subst hr
          exact ⟨[], ⟨.get, s⟩, rfl, by simp, hraise, he.symm, by simp⟩
        · rename_i hok
          split at h
          · simp at h
          · rename_i e' reqs' heq
            simp only [Prod.mk.injEq, Except.error.injEq] at h
            obtain ⟨he, hr⟩ := h
            subst he; subst hr
            obtain ⟨pre, fail, h1, h2, h3, h4, h5⟩ := ih _ _ _ heq
            refine ⟨⟨.get, s⟩ :: pre, fail, by simp [h1], ?_, h3, h4, ?_⟩
            · intro r hr
              rcases List.mem_cons.mp hr with h | h
              · subst h
                simpa using hok
              · exact h2 r h
            · simp only [List.length_cons]
              omega

theorem urlAt_step (server : Server α) (u : Option String) :
    ∀ k : Nat, urlAt server (stepUrl server u) k = urlAt server u (k + 1) := by
  intro k
  induction k with
  | zero => rfl
  | succ k ih =>
    show stepUrl server (urlAt server (stepUrl server u) k) = _
    rw [ih]
    rfl

theorem respAt_step (server : Server α) (u : Option String) (k : Nat) :
    respAt server (stepUrl server u) k = respAt server u (k + 1) := by
  unfold respAt
  rw [urlAt_step]

theorem itemsUpTo_step (server : Server α) (u : Option String) :
    ∀ k : Nat,
      itemsUpTo server u (k + 1) =
        ((respAt server u 0).elim [] fun r => r.body.data) ++
          itemsUpTo server (stepUrl server u) k := by
  intro k
  induction k with
  | zero =>
    show itemsUpTo server u 0 ++ _ = _
    simp [itemsUpTo]
  | succ k ih =>
    show itemsUpTo server u (k + 1) ++ _ = _
    rw [ih, ← respAt_step, List.append_assoc]
    rfl

/-- If the cursor is truthy then `respAt 0` is the response to it and the
cursor is a nonempty URL. -/
theorem respAt_zero (server : Server α) (s : String) (h : (s == "") = false) :
    respAt server (some s) 0 = some (server ⟨.get, s⟩) := by
  simp [respAt, urlAt, h]

/-- Against a server that always succeeds and always offers a truthy
next-link, the loop performs exactly `fuel` iterations from any truthy
starting cursor, issuing exactly `fuel` requests. -/
theorem fetchLoop_full (server : Server α) (hok : neverRaises server)
    (hnx : alwaysNext server) :
    ∀ (fuel : Nat) (u : Option String), pyTruthy u = true →
      ∃ items reqs,
        fetchLoop server fuel u = (.ok (items, fuel), reqs) ∧
          reqs.length = fuel := by
  intro fuel
  induction fuel with
  | zero =>
    intro u _
    exact ⟨[], [], rfl, rfl⟩
  | succ fuel ih =>
    intro u hu
    match u with
    | none => simp [pyTruthy] at hu
    | some s =>
      have hs : (s == "") = false := by
        simpa [pyTruthy] using hu
      obtain ⟨items, reqs, h1, h2⟩ :=
        ih ((server ⟨.get, s⟩).body.next) (hnx ⟨.get, s⟩)
      refine ⟨(server ⟨.get, s⟩).body.data ++ items, ⟨.get, s⟩ :: reqs, ?_, ?_⟩
      · simp only [fetchLoop, hs, hok ⟨.get, s⟩]
        simp [h1]
      · simp [h2]

/-- If pages `0, …, k-1` are answered successfully and the cursor the loop
holds before iteration `k` is falsy, the loop stops after exactly `k`
iterations with the concatenation of those pages' items, for any budget
of at least `k`. -/
theorem fetchLoop_stop (server : Server α) :
    ∀ (k fuel : Nat) (u : Option String),
      (∀ i < k, ∃ resp, respAt server u i = some resp ∧
        raisesForStatus resp.status = false) →
      pyTruthy (urlAt server u k) = false →
      k ≤ fuel →
      ∃ reqs,
        fetchLoop server fuel u = (.ok (itemsUpTo server u k, k), reqs) ∧
          reqs.length = k := by
  intro k
  induction k with
  | zero =>
    intro fuel u _ hstop _
    have : fetchLoop server fuel u = (.ok ([], 0), []) := by
      match fuel, u with
      | 0, _ => rfl
      | _ + 1, none => rfl
      | _ + 1, some s =>
        have hs : (s == "") = true := by
          simpa [pyTruthy, urlAt] using hstop
        simp [fetchLoop, hs]
    exact ⟨[], by simp [this, itemsUpTo], rfl⟩
  | succ k ih =>
    intro fuel u hsucc hstop hle
    obtain ⟨resp, hr0, hok0⟩ := hsucc 0 (Nat.succ_pos k)
    match u with
    | none => simp [respAt, urlAt] at hr0
    | some s =>
      by_cases hs : (s == "") = true
      · simp [respAt, urlAt, hs] at hr0
      · have hs' : (s == "") = false := by simpa using hs
        have hresp : resp = server ⟨.get, s⟩ := by
          rw [respAt_zero server s hs'] at hr0
          exact (Option.some.injEq _ _ ▸ hr0).symm
        cases fuel with
        | zero => exact absurd hle (by omega)
        | succ fuel =>
          have hstep : stepUrl server (some s) = (server ⟨.get, s⟩).body.next := by
            simp [stepUrl, hs']
          obtain ⟨reqs, hfl, hlen⟩ :=
            ih fuel (stepUrl server (some s))
              (fun i hi => by
                rw [respAt_step]
                exact hsucc (i + 1) (Nat.succ_lt_succ hi))
              (by rw [urlAt_step]; exact hstop)
              (Nat.le_of_succ_le_succ hle)
          refine ⟨⟨.get, s⟩ :: reqs, ?_, by simp [hlen]⟩
          have hraise : raisesForStatus (server ⟨.get, s⟩).status = false := by
            rw [← hresp]; exact hok0
          simp only [fetchLoop, hs', hraise]
          rw [hstep] at hfl
          simp only [hfl]
          rw [itemsUpTo_step, respAt_zero server s hs', hstep]
          simp [hresp]

/-- If pages `0, …, j-1` are answered successfully and page `j` is
answered with a raising status, the loop (with budget `> j`) aborts with
an error carrying that response's status and body, after issuing exactly
`j + 1` requests — the `j` successful pages plus the single failing
fetch; nothing is retried and no further page is fetched. -/
theorem fetchLoop_fail (server : Server α) :
    ∀ (j fuel : Nat) (u : Option String) (fail : Response α),
      (∀ i < j, ∃ resp, respAt server u i = some resp ∧
        raisesForStatus resp.status = false) →
      respAt server u j = some fail →
      raisesForStatus fail.status = true →
      j < fuel →
      ∃ reqs,
        fetchLoop server fuel u = (.error ⟨fail.status, fail.body⟩, reqs) ∧
          reqs.length = j + 1 := by
  intro j
  induction j with
  | zero =>
    intro fuel u fail _ hfail hraise hlt
    match u with
    | none => simp [respAt, urlAt] at hfail
    | some s =>
      by_cases hs : (s == "") = true
      · simp [respAt, urlAt, hs] at hfail
      · have hs' : (s == "") = false := by simpa using hs
        have hf : fail = server ⟨.get, s⟩ := by
          rw [respAt_zero server s hs'] at hfail
          exact (Option.some.injEq _ _ ▸ hfail).symm
        cases fuel with
        | zero => exact absurd hlt (by omega)
        | succ fuel =>
          refine ⟨[⟨.get, s⟩], ?_, rfl⟩
          subst hf
          simp [fetchLoop, hs', hraise]
  | succ j ih =>
    intro fuel u fail hsucc hfail hraise hlt
    obtain ⟨resp, hr0, hok0⟩ := hsucc 0 (Nat.succ_pos j)
    match u with
    | none => simp [respAt, urlAt] at hr0
    | some s =>
      by_cases hs : (s == "") = true
      · simp [respAt, urlAt, hs] at hr0
      · have hs' : (s == "") = false := by simpa using hs
        have hresp : resp = server ⟨.get, s⟩ := by
          rw [respAt_zero server s hs'] at hr0
          exact (Option.some.injEq _ _ ▸ hr0).symm
        cases fuel with
        | zero => exact absurd hlt (by omega)
        | succ fuel =>
          have hstep : stepUrl server (some s) = (server ⟨.get, s⟩).body.next := by
            simp [stepUrl, hs']
          obtain ⟨reqs, hfl, hlen⟩ :=
            ih fuel (stepUrl server (some s)) fail
              (fun i hi => by
                rw [respAt_step]
                exact hsucc (i + 1) (Nat.succ_lt_succ hi))
              (by rw [respAt_step]; exact hfail)
              hraise
              (Nat.lt_of_succ_lt_succ hlt)
          refine ⟨⟨.get, s⟩ :: reqs, ?_, by simp [hlen]⟩
          have hraise0 : raisesForStatus (server ⟨.get, s⟩).status = false := by
            rw [← hresp]; exact hok0
          simp only [fetchLoop, hs', hraise0]
          rw [hstep] at hfl
          simp [hfl]

/-- Unfolding lemma: a successful `_list_computers` call is a successful
loop run plus the result dictionary built from it. -/
theorem listComputers_eq_ok (server : Server α) (mp lp : Int)
    (res : ComputersResult α) (reqs : List Request)
    (h : listComputers server mp lp = (.ok res, reqs)) :
    fetchLoop server mp.toNat (some (computersUrl lp)) =
      (.ok (res.computers, res.pages_retrieved), reqs) ∧
      res.total_devices = res.computers.length := by
  unfold listComputers at h
  split at h
  · rename_i items pages reqs' heq
    simp only [Prod.mk.injEq, Except.ok.injEq] at h
    obtain ⟨hres, hreqs⟩ := h
    subst hres; subst hreqs
    exact ⟨heq, rfl⟩
  · simp at h

/-- Unfolding lemma: a failing `_list_computers` call is a failing loop
run with the same error and trace. -/
theorem listComputers_eq_err (server : Server α) (mp lp : Int)
    (e : HttpError α) (reqs : List Request)
    (h : listComputers server mp lp = (.error e, reqs)) :
    fetchLoop server mp.toNat (some (computersUrl lp)) = (.error e, reqs) := by
  unfold listComputers at h
  split at h
  · simp at h
  · rename_i e' reqs' heq
    simp only [Prod.mk.injEq, Except.error.injEq] at h
    obtain ⟨he, hr⟩ := h
    subst he; subst hr
    exact heq

/-- Unfolding lemma: a successful `_list_events` call is a successful
loop run plus the result dictionary built from it. -/
theorem listEvents_eq_ok (server : Server α) (mp lp : Int)
    (res : EventsResult α) (reqs : List Request)
    (h : listEvents server mp lp = (.ok res, reqs)) :
    fetchLoop server mp.toNat (some (eventsUrl lp)) =
      (.ok (res.events, res.pages_retrieved), reqs) ∧
      res.total_events = res.events.length := by
  unfold listEvents at h
  split at h
  · rename_i items pages reqs' heq
    simp only [Prod.mk.injEq, Except.ok.injEq] at h
    obtain ⟨hres, hreqs⟩ := h
    subst hres; subst hreqs
    exact ⟨heq, rfl⟩
  · simp at h

/-- Unfolding lemma: a failing `_list_events` call is a failing loop run
with the same error and trace. -/
theorem listEvents_eq_err (server : Server α) (mp lp : Int)
    (e : HttpError α) (reqs : List Request)
    (h : listEvents server mp lp = (.error e, reqs)) :
    fetchLoop server mp.toNat (some (eventsUrl lp)) = (.error e, reqs) := by
  unfold listEvents at h
  split at h
  · simp at h
  · rename_i e' reqs' heq
    simp only [Prod.mk.injEq, Except.error.injEq] at h
    obtain ⟨he, hr⟩ := h
    subst he; subst hr
    exact heq

/-- Shared helper for the credentials guard: when either credential is
falsy, `handle_call_tool` answers the fixed missing-credentials text with
an empty request trace, whatever the tool name and arguments. -/
theorem handleCallTool_missing (env : Env α)
    (hmiss : pyTruthy env.CLIENT_ID = false ∨ pyTruthy env.API_KEY = false)
    (tool : String) (args : Option Arguments) :
    handleCallTool env tool args = ([.text missingCredsText], []) := by
  unfold handleCallTool
  rcases hmiss with h | h <;> simp [h]

/-- A concrete server: status 200, one item, always a truthy next-link. -/
def wServerNext : Server Nat := fun _ => ⟨200, ⟨[7], some "u"⟩⟩

/-- A concrete server with two pages for both collections: the two
starting URLs answer `[1, 2]` with next-link `"p2"`, the URL `"p2"`
answers `[3]` with no next-link. -/
def wServerTwoPages : Server Nat := fun r =>
  if r.url == computersUrl 50 then ⟨200, ⟨[1, 2], some "p2"⟩⟩
  else if r.url == eventsUrl 50 then ⟨200, ⟨[1, 2], some "p2"⟩⟩
  else if r.url == "p2" then ⟨200, ⟨[3], none⟩⟩
  else ⟨200, ⟨[], none⟩⟩

/-- C8: for every call to `_list_computers` or `_list_events` with
`max_pages ≤ 0`, the pagination loop body never executes: no HTTP request
is issued and the function returns zero items and `pages_retrieved = 0`. -/
theorem nonpositive_max_pages_no_fetch (α : Type) (server : Server α)
    (mp lp : Int) (hmp : mp ≤ 0) :
    listComputers server mp lp = (.ok ⟨0, 0, []⟩, []) ∧
    listEvents server mp lp = (.ok ⟨0, 0, []⟩, []) := by
  have h : mp.toNat = 0 := Int.toNat_of_nonpos hmp
  constructor <;> simp [listComputers, listEvents, h, fetchLoop]

/-- Witness for C8 at `max_pages = -2`. -/
theorem nonpositive_max_pages_no_fetch_witness :
    listComputers wServerNext (-2) 50 = (.ok ⟨0, 0, []⟩, []) ∧
    listEvents wServerNext (-2) 50 = (.ok ⟨0, 0, []⟩, []) :=
  nonpositive_max_pages_no_fetch Nat wServerNext (-2) 50 (by decide)

/-- C9: on every successful return, `total_devices` equals the length of
the `computers` list and `total_events` equals the length of the `events`
list. -/
theorem totals_match_lengths (α : Type) :
    (∀ (server : Server α) (mp lp : Int) (res : ComputersResult α)
        (reqs : List Request),
      listComputers server mp lp = (.ok res, reqs) →
      res.total_devices = res.computers.length) ∧
    (∀ (server : Server α) (mp lp : Int) (res : EventsResult α)
        (reqs : List Request),
      listEvents server mp lp = (.ok res, reqs) →
      res.total_events = res.events.length) :=
  ⟨fun server mp lp res reqs h =>
    (listComputers_eq_ok server mp lp res reqs h).2,
   fun server mp lp res reqs h =>
    (listEvents_eq_ok server mp lp res reqs h).2⟩

/-- Witness for C9 on a concrete two-page run. -/
theorem totals_match_lengths_witness :
    (⟨3, 2, [1, 2, 3]⟩ : ComputersResult Nat).total_devices =
      [1, 2, 3].length ∧
    (⟨3, 2, [1, 2, 3]⟩ : EventsResult Nat).total_events =
      [1, 2, 3].length :=
  ⟨(totals_match_lengths Nat).1 wServerTwoPages 3 50 ⟨3, 2, [1, 2, 3]⟩
      [⟨.get, computersUrl 50⟩, ⟨.get, "p2"⟩] rfl,
   (totals_match_lengths Nat).2 wServerTwoPages 3 50 ⟨3, 2, [1, 2, 3]⟩
      [⟨.get, eventsUrl 50⟩, ⟨.get, "p2"⟩] rfl⟩

/-- C3: on every successful fetch, the returned item list is the raw
concatenation of the fetched pages' item sequences in arrival order (the
items of the pages obtained by replaying the issued request trace). -/
theorem items_are_raw_concatenation (α : Type) :
    (∀ (server : Server α) (mp lp : Int) (res : ComputersResult α)
        (reqs : List Request),
      listComputers server mp lp = (.ok res, reqs) →
      res.computers = traceItems server reqs) ∧
    (∀ (server : Server α) (mp lp : Int) (res : EventsResult α)
        (reqs : List Request),
      listEvents server mp lp = (.ok res, reqs) →
      res.events = traceItems server reqs) := by
  constructor
  · intro server mp lp res reqs h
    obtain ⟨hfl, _⟩ := listComputers_eq_ok server mp lp res reqs h
    exact (fetchLoop_ok server _ _ _ _ _ hfl).2.2
  · intro server mp lp res reqs h
    obtain ⟨hfl, _⟩ := listEvents_eq_ok server mp lp res reqs h
    exact (fetchLoop_ok server _ _ _ _ _ hfl).2.2

/-- Witness for C3 on a concrete two-page run. -/
theorem items_are_raw_concatenation_witness :
    [1, 2, 3] =
      traceItems wServerTwoPages [⟨.get, computersUrl 50⟩, ⟨.get, "p2"⟩] ∧
    [1, 2, 3] =
      traceItems wServerTwoPages [⟨.get, eventsUrl 50⟩, ⟨.get, "p2"⟩] :=
  ⟨(items_are_raw_concatenation Nat).1 wServerTwoPages 3 50 ⟨3, 2, [1, 2, 3]⟩
      [⟨.get, computersUrl 50⟩, ⟨.get, "p2"⟩] rfl,
   (items_are_raw_concatenation Nat).2 wServerTwoPages 3 50 ⟨3, 2, [1, 2, 3]⟩
      [⟨.get, eventsUrl 50⟩, ⟨.get, "p2"⟩] rfl⟩

/-- C1: with `max_pages ≥ 1`, against a server that answers every request
successfully and always supplies a truthy next-cursor, `_list_computers`
and `_list_events` each issue exactly `max_pages` page fetches and then
stop; and against every server whatsoever, a successful call reports
`pages_retrieved ≤ max_pages`. -/
theorem max_pages_bounds_pagination (α : Type) (mp lp : Int) (hmp : 1 ≤ mp) :
    (∀ server : Server α, neverRaises server → alwaysNext server →
      ((((listComputers server mp lp).2.length : Int) = mp ∧
        ∃ res reqs, listComputers server mp lp = (.ok res, reqs) ∧
          (res.pages_retrieved : Int) = mp) ∧
       (((listEvents server mp lp).2.length : Int) = mp ∧
        ∃ res reqs, listEvents server mp lp = (.ok res, reqs) ∧
          (res.pages_retrieved : Int) = mp))) ∧
    (∀ (server : Server α) (res : ComputersResult α) (reqs : List Request),
      listComputers server mp lp = (.ok res, reqs) →
      (res.pages_retrieved : Int) ≤ mp) ∧
    (∀ (server : Server α) (res : EventsResult α) (reqs : List Request),
      listEvents server mp lp = (.ok res, reqs) →
      (res.pages_retrieved : Int) ≤ mp) := by
  have hcast : ((mp.toNat : Int)) = mp :=
    Int.toNat_of_nonneg (le_trans zero_le_one hmp)
  refine ⟨?_, ?_, ?_⟩
  · intro server hok hnx
    obtain ⟨items, reqs, h1, h2⟩ :=
      fetchLoop_full server hok hnx mp.toNat (some (computersUrl lp))
        (by simp [pyTruthy, computersUrl_ne_empty])
    obtain ⟨items', reqs', h1', h2'⟩ :=
      fetchLoop_full server hok hnx mp.toNat (some (eventsUrl lp))
        (by simp [pyTruthy, eventsUrl_ne_empty])
    have hlc : listComputers server mp lp =
        (.ok ⟨items.length, mp.toNat, items⟩, reqs) := by
      unfold listComputers; rw [h1]
    have hle : listEvents server mp lp =
        (.ok ⟨items'.length, mp.toNat, items'⟩, reqs') := by
      unfold listEvents; rw [h1']
    refine ⟨⟨?_, ⟨items.length, mp.toNat, items⟩, reqs, hlc, hcast⟩,
            ⟨?_, ⟨items'.length, mp.toNat, items'⟩, reqs', hle, hcast⟩⟩
    · rw [hlc]
      show ((reqs.length : Int)) = mp
      rw [h2]; exact hcast
    · rw [hle]
      show ((reqs'.length : Int)) = mp
      rw [h2']; exact hcast
  · intro server res reqs h
    obtain ⟨hfl, _⟩ := listComputers_eq_ok server mp lp res reqs h
    obtain ⟨_, hb, _⟩ := fetchLoop_ok server _ _ _ _ _ hfl
    calc (res.pages_retrieved : Int) ≤ (mp.toNat : Int) := by exact_mod_cast hb
      _ = mp := hcast
  · intro server res reqs h
    obtain ⟨hfl, _⟩ := listEvents_eq_ok server mp lp res reqs h
    obtain ⟨_, hb, _⟩ := fetchLoop_ok server _ _ _ _ _ hfl
    calc (res.pages_retrieved : Int) ≤ (mp.toNat : Int) := by exact_mod_cast hb
      _ = mp := hcast

/-- Witness for C1 at `max_pages = 2` against an unbounded server. -/
theorem max_pages_bounds_pagination_witness :
    ((listComputers wServerNext 2 50).2.length : Int) = 2 ∧
    ((listEvents wServerNext 2 50).2.length : Int) = 2 := by
  have h := (max_pages_bounds_pagination Nat 2 50 (by decide)).1 wServerNext
    (fun r => rfl) (fun r => rfl)
  exact ⟨h.1.1, h.2.1⟩

/-- C4: if the server answers pages `1, …, k` successfully and the cursor
obtained from page `k` is exhausted, with `k < max_pages`, the fetch stops
right after page `k`: the call succeeds with `pages_retrieved = k` (hence
`< max_pages`), issues exactly `k` requests, and returns the concatenation
of those `k` pages' items with the matching total.  Stated for both
collections. -/
theorem stops_when_cursor_absent (α : Type) (server : Server α)
    (mp lp : Int) (k : Nat) (hk : k < mp.toNat) :
    ((∀ i < k, ∃ resp,
        respAt server (some (computersUrl lp)) i = some resp ∧
          raisesForStatus resp.status = false) →
      pyTruthy (urlAt server (some (computersUrl lp)) k) = false →
      ∃ reqs, listComputers server mp lp =
          (.ok ⟨(itemsUpTo server (some (computersUrl lp)) k).length, k,
                itemsUpTo server (some (computersUrl lp)) k⟩, reqs) ∧
        reqs.length = k) ∧
    ((∀ i < k, ∃ resp,
        respAt server (some (eventsUrl lp)) i = some resp ∧
          raisesForStatus resp.status = false) →
      pyTruthy (urlAt server (some (eventsUrl lp)) k) = false →
      ∃ reqs, listEvents server mp lp =
          (.ok ⟨(itemsUpTo server (some (eventsUrl lp)) k).length, k,
                itemsUpTo server (some (eventsUrl lp)) k⟩, reqs) ∧
        reqs.length = k) := by
  constructor
  · intro hsucc hstop
    obtain ⟨reqs, hfl, hlen⟩ :=
      fetchLoop_stop server k mp.toNat (some (computersUrl lp)) hsucc hstop
        (le_of_lt hk)
    exact ⟨reqs, by unfold listComputers; rw [hfl], hlen⟩
  · intro hsucc hstop
    obtain ⟨reqs, hfl, hlen⟩ :=
      fetchLoop_stop server k mp.toNat (some (eventsUrl lp)) hsucc hstop
        (le_of_lt hk)
    exact ⟨reqs, by unfold listEvents; rw [hfl], hlen⟩

/-- A concrete server matching the spec's worked example: page 1 of the
computers collection has 50 items and a next-link, page 2 has 10 items
and no next-link. -/
def wServerExample : Server Nat := fun r =>
  if r.url == computersUrl 50 then ⟨200, ⟨List.replicate 50 0, some "page2"⟩⟩
  else if r.url == "page2" then ⟨200, ⟨List.replicate 10 1, none⟩⟩
  else ⟨404, ⟨[], none⟩⟩

/-- Witness for C4: the spec's example run (pages of 50 and 10 items, no
next-cursor on the second, `max_pages = 3`) returns 60 items and
`pages_retrieved = 2`. -/
theorem stops_when_cursor_absent_witness :
    (∃ reqs, listComputers wServerExample 3 50 =
        (.ok ⟨(itemsUpTo wServerExample (some (computersUrl 50)) 2).length, 2,
              itemsUpTo wServerExample (some (computersUrl 50)) 2⟩, reqs) ∧
      reqs.length = 2) ∧
    (itemsUpTo wServerExample (some (computersUrl 50)) 2).length = 60 := by
  refine ⟨(stops_when_cursor_absent Nat wServerExample 3 50 2 (by decide)).1
    ?_ ?_, ?_⟩
  · intro i hi
    match i, hi with
    | 0, _ => exact ⟨_, rfl, rfl⟩
    | 1, _ => exact ⟨_, rfl, rfl⟩
  · rfl
  · rfl

/-- A concrete server answering status 300 (non-2xx but below 400) with
one item and no next-link. -/
def wServer300 : Server Nat := fun _ => ⟨300, ⟨[5], none⟩⟩

/-- Counterexample to C2 as stated: a non-2xx response (status 300) on
page 1 does not abort the invocation.  `requests.raise_for_status` raises
only for `400 ≤ status < 600`, so `_list_computers` treats the page as a
success and returns normally. -/
theorem status_300_not_an_error :
    (wServer300 ⟨.get, computersUrl 50⟩).status = 300 ∧
    ¬ (200 ≤ 300 ∧ 300 < 300) ∧
    raisesForStatus 300 = false ∧
    listComputers wServer300 3 50 =
      (.ok ⟨1, 1, [5]⟩, [⟨.get, computersUrl 50⟩]) :=
  ⟨rfl, by decide, rfl, rfl⟩

/-- C2 (amended to the statuses `raise_for_status` actually raises on,
namely 4xx/5xx): when pages `1, …, j` are answered successfully and page
`j + 1` (with `j + 1 ≤ max_pages`) is answered with a status in
`[400, 600)`, the whole invocation fails with the `HTTPError` carrying
that response's status and body, exactly `j + 1` requests are issued (no
retry, no further page), and — credentials being present — the caller
receives a single error-text payload and none of the fetched items.
Stated for both collections at the dispatch level. -/
theorem upstream_4xx5xx_aborts_pagination (α : Type) (env : Env α)
    (args : Option Arguments) (j : Nat) (fail : Response α)
    (hcid : pyTruthy env.CLIENT_ID = true)
    (hkey : pyTruthy env.API_KEY = true)
    (hraise : raisesForStatus fail.status = true)
    (hj : j < (argMaxPages args).toNat) :
    ((∀ i < j, ∃ resp,
        respAt env.server (some (computersUrl (argLimitPerPage args))) i =
            some resp ∧
          raisesForStatus resp.status = false) →
      respAt env.server (some (computersUrl (argLimitPerPage args))) j =
          some fail →
      ∃ reqs,
        listComputers env.server (argMaxPages args) (argLimitPerPage args) =
          (.error ⟨fail.status, fail.body⟩, reqs) ∧
        reqs.length = j + 1 ∧
        400 ≤ fail.status ∧ fail.status < 600 ∧
        handleCallTool env "list_computers" args =
          ([.errorText "list_computers"
              (.httpError ⟨fail.status, fail.body⟩)], reqs)) ∧
    ((∀ i < j, ∃ resp,
        respAt env.server (some (eventsUrl (argLimitPerPage args))) i =
            some resp ∧
          raisesForStatus resp.status = false) →
      respAt env.server (some (eventsUrl (argLimitPerPage args))) j =
          some fail →
      ∃ reqs,
        listEvents env.server (argMaxPages args) (argLimitPerPage args) =
          (.error ⟨fail.status, fail.body⟩, reqs) ∧
        reqs.length = j + 1 ∧
        400 ≤ fail.status ∧ fail.status < 600 ∧
        handleCallTool env "list_events" args =
          ([.errorText "list_events"
              (.httpError ⟨fail.status, fail.body⟩)], reqs)) := by
  have hst : 400 ≤ fail.status ∧ fail.status < 600 := by
    simpa [raisesForStatus, Bool.and_eq_true, decide_eq_true_eq] using hraise
  constructor
  · intro hsucc hfail
    obtain ⟨reqs, hfl, hlen⟩ :=
      fetchLoop_fail env.server j (argMaxPages args).toNat _ fail hsucc hfail
        hraise hj
    have hlc : listComputers env.server (argMaxPages args)
        (argLimitPerPage args) = (.error ⟨fail.status, fail.body⟩, reqs) := by
      unfold listComputers; rw [hfl]
    refine ⟨reqs, hlc, hlen, hst.1, hst.2, ?_⟩
    simp [handleCallTool, dispatchTool, hcid, hkey, hlc]
  · intro hsucc hfail
    obtain ⟨reqs, hfl, hlen⟩ :=
      fetchLoop_fail env.server j (argMaxPages args).toNat _ fail hsucc hfail
        hraise hj
    have hle : listEvents env.server (argMaxPages args)
        (argLimitPerPage args) = (.error ⟨fail.status, fail.body⟩, reqs) := by
      unfold listEvents; rw [hfl]
    refine ⟨reqs, hle, hlen, hst.1, hst.2, ?_⟩
    simp [handleCallTool, dispatchTool, hcid, hkey, hle]

/-- A concrete server whose collections have a successful first page and
a failing (404) second page. -/
def wServerFailPage2 : Server Nat := fun r =>
  if r.url == computersUrl 50 then ⟨200, ⟨[1, 2], some "p2"⟩⟩
  else if r.url == eventsUrl 50 then ⟨200, ⟨[1, 2], some "p2"⟩⟩
  else ⟨404, ⟨[9], none⟩⟩

/-- A concrete environment with credentials present, backed by
`wServerFailPage2`. -/
def wEnvFail : Env Nat := ⟨some "id", some "key", wServerFailPage2⟩

/-- Witness for the amended C2: a 404 on page 2 of a 3-page computers
fetch aborts the invocation with the error payload alone. -/
theorem upstream_4xx5xx_aborts_pagination_witness :
    ∃ reqs,
      listComputers wServerFailPage2 3 50 =
        (.error ⟨404, ⟨[9], none⟩⟩, reqs) ∧
      reqs.length = 1 + 1 ∧
      400 ≤ (404 : Nat) ∧ (404 : Nat) < 600 ∧
      handleCallTool wEnvFail "list_computers" none =
        ([.errorText "list_computers" (.httpError ⟨404, ⟨[9], none⟩⟩)],
          reqs) := by
  exact (upstream_4xx5xx_aborts_pagination Nat wEnvFail none 1
      ⟨404, ⟨[9], none⟩⟩ rfl rfl rfl (by decide)).1
    (fun i hi => by
      match i, hi with
      | 0, _ => exact ⟨_, rfl, rfl⟩)
    rfl

/-- A concrete environment with the client id env var unset. -/
def wEnvNoCreds : Env Nat := ⟨none, some "key", wServerTwoPages⟩

/-- A concrete environment with credentials present, backed by
`wServerTwoPages`. -/
def wEnvOk : Env Nat := ⟨some "id", some "key", wServerTwoPages⟩

/-- C5: while either credential environment variable is absent or empty,
every tool call returns the fixed missing-credentials error text and
issues no HTTP request at all. -/
theorem missing_credentials_no_network (α : Type) (env : Env α)
    (hmiss : pyTruthy env.CLIENT_ID = false ∨
      pyTruthy env.API_KEY = false) :
    ∀ (tool : String) (args : Option Arguments),
      handleCallTool env tool args = ([.text missingCredsText], []) :=
  fun tool args => handleCallTool_missing env hmiss tool args

/-- Witness for C5 with the client id unset. -/
theorem missing_credentials_no_network_witness :
    handleCallTool wEnvNoCreds "list_computers" none =
      ([.text missingCredsText], []) :=
  missing_credentials_no_network Nat wEnvNoCreds (Or.inl rfl)
    "list_computers" none

/-- C6: with credentials present, a call to `get_isolation_status`,
`isolate_device` or `unisolate_device` whose argument mapping is absent
or lacks the `computer_guid` key yields the `ValueError` payload
`computer_guid parameter is required` and issues no HTTP request. -/
theorem missing_guid_invalid_argument (α : Type) (env : Env α)
    (tool : String) (args : Option Arguments)
    (hcid : pyTruthy env.CLIENT_ID = true)
    (hkey : pyTruthy env.API_KEY = true)
    (htool : tool = "isolate_device" ∨ tool = "unisolate_device" ∨
      tool = "get_isolation_status")
    (hguid : argGuid args = none) :
    handleCallTool env tool args =
      ([.errorText tool (.valueError guidRequired)], []) := by
  rcases htool with h | h | h <;> subst h <;>
    simp [handleCallTool, dispatchTool, hcid, hkey, hguid]

/-- Witness for C6: `get_isolation_status` with no argument mapping. -/
theorem missing_guid_invalid_argument_witness :
    handleCallTool wEnvOk "get_isolation_status" none =
      ([.errorText "get_isolation_status" (.valueError guidRequired)], []) :=
  missing_guid_invalid_argument Nat wEnvOk "get_isolation_status" none
    rfl rfl (Or.inr (Or.inr rfl)) rfl

/-- C7: with credentials present, `handle_call_tool` always answers with
a single payload, and every error arising during dispatch or inside a
handler — unknown tool names included — is converted into the
`errorText` payload for that tool name (the model of the text
`Error executing <tool>: <message>`); nothing propagates as a crash. -/
theorem dispatch_errors_converted (α : Type) (env : Env α) (tool : String)
    (args : Option Arguments)
    (hcid : pyTruthy env.CLIENT_ID = true)
    (hkey : pyTruthy env.API_KEY = true) :
    (∃ c, (handleCallTool env tool args).1 = [c]) ∧
    (∀ (e : DispatchError α) (reqs : List Request),
      dispatchTool env.server tool args = (.error e, reqs) →
      handleCallTool env tool args = ([.errorText tool e], reqs)) ∧
    (tool ≠ "list_computers" → tool ≠ "list_events" →
     tool ≠ "isolate_device" → tool ≠ "unisolate_device" →
     tool ≠ "get_isolation_status" →
      handleCallTool env tool args =
        ([.errorText tool (.valueError ("Unknown tool: " ++ tool))], [])) := by
  have hcreds : (!pyTruthy env.CLIENT_ID || !pyTruthy env.API_KEY) = false := by
    simp [hcid, hkey]
  refine ⟨?_, ?_, ?_⟩
  · rcases hd : dispatchTool env.server tool args with ⟨r, reqs⟩
    cases r with
    | ok v => exact ⟨.json v, by simp [handleCallTool, hcreds, hd]⟩
    | error e => exact ⟨.errorText tool e, by simp [handleCallTool, hcreds, hd]⟩
  · intro e reqs hd
    simp [handleCallTool, hcreds, hd]
  · intro h1 h2 h3 h4 h5
    have hb1 : (tool == "list_computers") = false := beq_eq_false_iff_ne.mpr h1
    have hb2 : (tool == "list_events") = false := beq_eq_false_iff_ne.mpr h2
    have hb3 : (tool == "isolate_device") = false := beq_eq_false_iff_ne.mpr h3
    have hb4 : (tool == "unisolate_device") = false := beq_eq_false_iff_ne.mpr h4
    have hb5 : (tool == "get_isolation_status") = false :=
      beq_eq_false_iff_ne.mpr h5
    simp [handleCallTool, hcreds, dispatchTool, hb1, hb2, hb3, hb4, hb5]

/-- Witness for C7: an unrecognized tool name yields the error payload. -/
theorem dispatch_errors_converted_witness :
    handleCallTool wEnvOk "frobnicate" none =
      ([.errorText "frobnicate"
          (.valueError ("Unknown tool: " ++ "frobnicate"))], []) :=
  (dispatch_errors_converted Nat wEnvOk "frobnicate" none rfl rfl).2.2
    (by decide) (by decide) (by decide) (by decide) (by decide)

/-- C10: the credentials check precedes tool-name dispatch and argument
validation: with missing credentials every call — unknown tool name or
missing `computer_guid` included — returns the missing-credentials text
with no requests, and no `errorText` payload (the form every
`UnknownTool` / `InvalidArgument` error takes) is ever produced. -/
theorem credentials_check_first (α : Type) (env : Env α)
    (hmiss : pyTruthy env.CLIENT_ID = false ∨
      pyTruthy env.API_KEY = false) :
    ∀ (tool : String) (args : Option Arguments),
      handleCallTool env tool args = ([.text missingCredsText], []) ∧
      ∀ c ∈ (handleCallTool env tool args).1,
        ∀ (t : String) (e : DispatchError α), c ≠ .errorText t e := by
  intro tool args
  have h := handleCallTool_missing env hmiss tool args
  refine ⟨h, ?_⟩
  intro c hc t e
  rw [h] at hc
  simp at hc
  subst hc
  simp

/-- Witness for C10: an unrecognized tool name with missing credentials
still gets the missing-credentials text, not an unknown-tool error. -/
theorem credentials_check_first_witness :
    handleCallTool wEnvNoCreds "not_a_tool" none =
      ([.text missingCredsText], []) :=
  (credentials_check_first Nat wEnvNoCreds (Or.inl rfl) "not_a_tool" none).1

end AgentPy
